import Mathlib

/-!
Verification of the generic gRPC call-forwarding layer in
`common_pygrpc/grpclib.py`.

The development shallowly embeds the module: JSON values are an inductive
type, the Python `json.dumps` / `json.loads` codec is modelled by an
executable renderer and parser over `List Char`, and the server dispatch
(`CommonService.handle`), the logging decorator (`rpc_log`) and the
client-side remote-call wrapper (`grpc_service`) are explicit Lean
functions.  Exceptions escaping a Python function are modelled by
`Except PyExc`.
-/

/-! ## JSON value model

Values representable in the interchange format used by the envelope codec
(Python ints stand in for JSON numbers; the module never produces floats
in its own envelope fields). -/

inductive Json where
  | null
  | bool (b : Bool)
  | num (n : Int)
  | str (s : String)
  | arr (elems : List Json)
  | obj (fields : List (String × Json))

/-- `d.get(k)` on a decoded JSON object.  All objects built by the library
carry pairwise-distinct keys, so first-match lookup agrees with Python's
dict semantics on every value the library constructs. -/
def Json.get (j : Json) (k : String) : Option Json :=
  match j with
  | .obj kvs => kvs.lookup k
  | _ => none

/-- Whether the decoded payload is a JSON object (a Python `dict`, the only
shape on which `.get` is defined). -/
def Json.isObj (j : Json) : Bool :=
  match j with
  | .obj _ => true
  | _ => false

/-- Python truthiness of a decoded JSON value, used by the
`grpc_request.get('args') or ()` defaults in `handle`. -/
def Json.falsy (j : Json) : Bool :=
  match j with
  | .null => true
  | .bool b => !b
  | .num n => n == 0
  | .str s => s.isEmpty
  | .arr xs => xs.isEmpty
  | .obj kvs => kvs.isEmpty

/-! ## Decimal digits -/

def digitChar (d : Nat) : Char := Char.ofNat (48 + d)

def charToDigit (c : Char) : Nat := c.toNat - 48

/-- Decimal rendering of a natural number, most significant digit first. -/
def natChars (n : Nat) : List Char :=
  if n = 0 then ['0'] else ((Nat.digits 10 n).map digitChar).reverse

/-- Decimal rendering of an integer (`json.dumps` on a Python int). -/
def intChars (i : Int) : List Char :=
  if i < 0 then '-' :: natChars (-i).toNat else natChars i.toNat

/-- Numeric value of a (most-significant-first) digit string. -/
def parseNatChars (ds : List Char) : Nat :=
  ds.foldl (fun a c => a * 10 + charToDigit c) 0

/-! ## Hexadecimal digits (for string escapes) -/

def hexDigitChar (d : Nat) : Char :=
  if d < 10 then Char.ofNat (48 + d) else Char.ofNat (87 + d)

def isHexDigit (c : Char) : Bool :=
  (48 ≤ c.toNat && c.toNat ≤ 57) || (97 ≤ c.toNat && c.toNat ≤ 102) ||
    (65 ≤ c.toNat && c.toNat ≤ 70)

def hexVal (c : Char) : Nat :=
  if c.toNat ≤ 57 then c.toNat - 48
  else if 97 ≤ c.toNat then c.toNat - 87
  else c.toNat - 55

/-! ## String escaping (`json.dumps(..., ensure_ascii=False)`)

`dumps` escapes the quote, the backslash and control characters; the five
controls with short forms use them, the rest use a `\u00XX` sequence.
All other characters, non-ASCII included, pass through literally. -/

def escapeChar (c : Char) : List Char :=
  if c = '"' then ['\\', '"']
  else if c = '\\' then ['\\', '\\']
  else if c = '\n' then ['\\', 'n']
  else if c = '\t' then ['\\', 't']
  else if c = '\r' then ['\\', 'r']
  else if c = Char.ofNat 8 then ['\\', 'b']
  else if c = Char.ofNat 12 then ['\\', 'f']
  else if c.toNat < 32 then
    ['\\', 'u', '0', '0', hexDigitChar (c.toNat / 16), hexDigitChar (c.toNat % 16)]
  else [c]

def escapeChars : List Char → List Char
  | [] => []
  | c :: rest => escapeChar c ++ escapeChars rest

def renderString (s : String) : List Char :=
  '"' :: escapeChars s.data ++ ['"']

/-! ## Rendering (`json.dumps` with the default separators `", "`, `": "`) -/

mutual
def renderJson : Json → List Char
  | .null => "null".data
  | .bool true => "true".data
  | .bool false => "false".data
  | .num n => intChars n
  | .str s => renderString s
  | .arr [] => "[]".data
  | .arr (x :: xs) => '[' :: (renderJson x ++ renderArrTail xs ++ [']'])
  | .obj [] => "{}".data
  | .obj (kv :: kvs) => '{' :: (renderMember kv ++ renderObjTail kvs ++ ['}'])

def renderArrTail : List Json → List Char
  | [] => []
  | x :: xs => ',' :: ' ' :: (renderJson x ++ renderArrTail xs)

def renderMember : String × Json → List Char
  | (k, v) => renderString k ++ ':' :: ' ' :: renderJson v

def renderObjTail : List (String × Json) → List Char
  | [] => []
  | kv :: kvs => ',' :: ' ' :: (renderMember kv ++ renderObjTail kvs)
end

/-- `json.dumps(v, ensure_ascii=False)`. -/
def dumps (v : Json) : String := ⟨renderJson v⟩

/-! ## Parsing (`json.loads`) -/

def isWsChar (c : Char) : Bool :=
  c = ' ' || c = '\t' || c = '\n' || c = '\r'

def skipWs (cs : List Char) : List Char := cs.dropWhile isWsChar

/-- Decode one short escape after a backslash. -/
def simpleEscape (e : Char) : Option Char :=
  if e = '"' then some '"'
  else if e = '\\' then some '\\'
  else if e = '/' then some '/'
  else if e = 'n' then some '\n'
  else if e = 't' then some '\t'
  else if e = 'r' then some '\r'
  else if e = 'b' then some (Char.ofNat 8)
  else if e = 'f' then some (Char.ofNat 12)
  else none

/-- Parse the body of a JSON string up to and including the closing quote,
returning the decoded characters and the remaining input. -/
def parseStringBody : List Char → Option (List Char × List Char)
  | [] => none
  | c :: rest =>
    if c = '"' then some ([], rest)
    else if c = '\\' then
      match rest with
      | [] => none
      | e :: rest2 =>
        if e = 'u' then
          match rest2 with
          | h1 :: h2 :: h3 :: h4 :: rest3 =>
            if isHexDigit h1 && isHexDigit h2 && isHexDigit h3 && isHexDigit h4 then
              match parseStringBody rest3 with
              | some (s, r) =>
                some (Char.ofNat
                  (((hexVal h1 * 16 + hexVal h2) * 16 + hexVal h3) * 16 + hexVal h4) :: s, r)
              | none => none
            else none
          | _ => none
        else
          match simpleEscape e with
          | some ch =>
            match parseStringBody rest2 with
            | some (s, r) => some (ch :: s, r)
            | none => none
          | none => none
    else if c.toNat < 32 then none
    else
      match parseStringBody rest with
      | some (s, r) => some (c :: s, r)
      | none => none

mutual
def parseVal : Nat → List Char → Option (Json × List Char)
  | 0, _ => none
  | fuel + 1, cs =>
    match skipWs cs with
    | [] => none
    | c :: rest =>
      if c = 'n' then
        match rest with
        | 'u' :: 'l' :: 'l' :: r => some (.null, r)
        | _ => none
      else if c = 't' then
        match rest with
        | 'r' :: 'u' :: 'e' :: r => some (.bool true, r)
        | _ => none
      else if c = 'f' then
        match rest with
        | 'a' :: 'l' :: 's' :: 'e' :: r => some (.bool false, r)
        | _ => none
      else if c = '"' then
        match parseStringBody rest with
        | some (s, r) => some (.str ⟨s⟩, r)
        | none => none
      else if c = '[' then
        match skipWs rest with
        | [] => none
        | c1 :: r1 =>
          if c1 = ']' then some (.arr [], r1)
          else
            match parseVal fuel (c1 :: r1) with
            | some (v, r) =>
              match parseArrTail fuel r with
              | some (vs, r2) => some (.arr (v :: vs), r2)
              | none => none
            | none => none
      else if c = '{' then
        match skipWs rest with
        | [] => none
        | c1 :: r1 =>
          if c1 = '}' then some (.obj [], r1)
          else
            match parseMember fuel (c1 :: r1) with
            | some (kv, r) =>
              match parseObjTail fuel r with
              | some (kvs, r2) => some (.obj (kv :: kvs), r2)
              | none => none
            | none => none
      else if c = '-' then
        match rest.takeWhile Char.isDigit with
        | [] => none
        | ds => some (.num (-(parseNatChars ds : Int)), rest.dropWhile Char.isDigit)
      else if c.isDigit then
        some (.num (parseNatChars ((c :: rest).takeWhile Char.isDigit) : Int),
          (c :: rest).dropWhile Char.isDigit)
      else none

def parseMember : Nat → List Char → Option ((String × Json) × List Char)
  | 0, _ => none
  | fuel + 1, cs =>
    match skipWs cs with
    | '"' :: rest =>
      match parseStringBody rest with
      | some (k, r) =>
        match skipWs r with
        | ':' :: r2 =>
          match parseVal fuel r2 with
          | some (v, r3) => some ((⟨k⟩, v), r3)
          | none => none
        | _ => none
      | none => none
    | _ => none

def parseArrTail : Nat → List Char → Option (List Json × List Char)
  | 0, _ => none
  | fuel + 1, cs =>
    match skipWs cs with
    | ']' :: r => some ([], r)
    | ',' :: r =>
      match parseVal fuel r with
      | some (v, r1) =>
        match parseArrTail fuel r1 with
        | some (vs, r2) => some (v :: vs, r2)
        | none => none
      | none => none
    | _ => none

def parseObjTail : Nat → List Char → Option (List (String × Json) × List Char)
  | 0, _ => none
  | fuel + 1, cs =>
    match skipWs cs with
    | '}' :: r => some ([], r)
    | ',' :: r =>
      match parseMember fuel r with
      | some (kv, r1) =>
        match parseObjTail fuel r1 with
        | some (kvs, r2) => some (kv :: kvs, r2)
        | none => none
      | none => none
    | _ => none
end

/-- `json.loads`: parse one JSON document; the whole input (up to trailing
whitespace) must be consumed. -/
def loads (s : String) : Option Json :=
  match parseVal (s.data.length + 1) s.data with
  | some (v, rest) => if skipWs rest = [] then some v else none
  | none => none

/-! ## Auxiliary definitions for the round-trip proof -/

/-- The first character of a rendered JSON value is never whitespace and never
a closing bracket. -/
def goodStart (c : Char) : Prop := isWsChar c = false ∧ c ≠ ']' ∧ c ≠ '}'

/-- The remaining input after a rendered value must not begin with a digit
(a digit would extend a rendered number). -/
def noLeadDigit (cs : List Char) : Prop := ∀ c ∈ cs.head?, c.isDigit = false

/-! Fuel sufficient for the parser on a rendered value (the parser threads
one fuel unit per recursive entry). -/
mutual
def fuelV : Json → Nat
  | .null => 1
  | .bool _ => 1
  | .num _ => 1
  | .str _ => 1
  | .arr [] => 1
  | .arr (x :: xs) => 1 + fuelV x + fuelT xs
  | .obj [] => 1
  | .obj (kv :: kvs) => 1 + fuelM kv + fuelOT kvs

def fuelT : List Json → Nat
  | [] => 1
  | x :: xs => 1 + fuelV x + fuelT xs

def fuelM : String × Json → Nat
  | (_, v) => 1 + fuelV v

def fuelOT : List (String × Json) → Nat
  | [] => 1
  | kv :: kvs => 1 + fuelM kv + fuelOT kvs
end


/-! ## Python-side value and object model

`PyExc` is a raised exception (its type name as reported by
`type(e).__name__`, and `str(e)`).  `PyVal` is a Python value that a remote
callable may return: either JSON-representable or an opaque object the
codec rejects at `json.dumps` time.  `PyObj` is an attribute tree whose
nodes may be callable; a callable either returns a value or raises. -/

structure PyExc where
  name : String
  msg : String
deriving Repr, DecidableEq

inductive PyVal where
  | json (j : Json)
  | blob (tag : String)

inductive PyObj where
  | mk (attrs : String → Option PyObj)
       (call : Option (List Json → List (String × Json) → Except PyExc PyVal))

def PyObj.attrs : PyObj → String → Option PyObj
  | .mk a _ => a

def PyObj.call : PyObj → Option (List Json → List (String × Json) → Except PyExc PyVal)
  | .mk _ c => c

/-- The interpreter's importable-module table (`importlib`). -/
structure Env where
  modules : String → Option PyObj

/-! ## Transport request/response wrappers (`common_pb2`)

Protobuf `bytes` payloads are modelled as the decoded UTF-8 text they
carry. -/

structure CommonRequest where
  request : String
  serialize : Int
  request_id : String

structure CommonResponse where
  response : String
  status : Int
deriving Repr, DecidableEq

/-! ## Server side: `CommonService.handle` (grpclib.py lines 67-101) -/

/-- Python `str.split(sep)` for a single-character separator. -/
def splitChar (sep : Char) : List Char → List (List Char)
  | [] => [[]]
  | c :: rest =>
    match splitChar sep rest with
    | [] => [[c]]
    | g :: gs => if c = sep then [] :: g :: gs else (c :: g) :: gs

def pySplit (sep : Char) (s : String) : List String :=
  (splitChar sep s.data).map (fun cs => ⟨cs⟩)

/-- `importlib.import_module(_clazz)`: `_clazz` must be a string naming a
loadable module; otherwise the import machinery raises. -/
def importModule (env : Env) (clazz : Option Json) : Except PyExc PyObj :=
  match clazz with
  | some (.str s) =>
    match env.modules s with
    | some m => .ok m
    | none => .error ⟨"ModuleNotFoundError", "No module named " ++ s⟩
  | _ => .error ⟨"TypeError", "the module name must be a string"⟩

/-- `method.split('.')` on the decoded `method` field; a missing or
non-string field has no `split` attribute. -/
def methodPath (method : Option Json) : Except PyExc (List String) :=
  match method with
  | some (.str m) => .ok (pySplit '.' m)
  | _ => .error ⟨"AttributeError", "object has no attribute split"⟩

/-- `functools.reduce(lambda x, y: getattr(x, y), [module, *method.split('.')])`. -/
def resolvePath (m : PyObj) (parts : List String) : Except PyExc PyObj :=
  parts.foldlM
    (fun o seg =>
      match o.attrs seg with
      | some o2 => Except.ok o2
      | none => Except.error ⟨"AttributeError", "object has no attribute " ++ seg⟩)
    m

/-- The resolution stage of `handle` (lines 82-87): namespace resolver,
module import, dotted attribute walk.  None of this is inside the
`try` block. -/
def resolveInvoke (env : Env) (clazzHandler : Option Json → Option Json) (rq : Json) :
    Except PyExc PyObj := do
  let m ← importModule env (clazzHandler (rq.get "clazz"))
  let parts ← methodPath (rq.get "method")
  resolvePath m parts

/-- `*args` unpacking combined with the `grpc_request.get('args') or ()`
default: an absent or falsy value yields `()`; a JSON array yields its
elements; any other truthy value makes the call raise.  (A truthy JSON
string would iterate its characters in Python; the client never produces
one, and it is folded into the `TypeError` case here.) -/
def starArgs : Option Json → Except PyExc (List Json)
  | none => .ok []
  | some j =>
    if j.falsy then .ok []
    else
      match j with
      | .arr xs => .ok xs
      | _ => .error ⟨"TypeError", "argument unpacking needs an iterable"⟩

/-- `**kwargs` unpacking combined with the `or {}` default (the braces in
the source are a Python dict literal). -/
def starKwargs : Option Json → Except PyExc (List (String × Json))
  | none => .ok []
  | some j =>
    if j.falsy then .ok []
    else
      match j with
      | .obj kvs => .ok kvs
      | _ => .error ⟨"TypeError", "argument after double star must be a mapping"⟩

/-- `invoke(*args, **kwargs)` — everything the `try` block guards. -/
def invokeCall (invoke : PyObj) (argsJ kwargsJ : Option Json) : Except PyExc PyVal := do
  let args ← starArgs argsJ
  let kwargs ← starKwargs kwargsJ
  match invoke.call with
  | some f => f args kwargs
  | none => .error ⟨"TypeError", "object is not callable"⟩

/-- The mutable `response` dict built by `handle`. -/
structure RespDict where
  status : Int
  message : String
  excType : String
  result : PyVal

/-- `json.dumps(response, ensure_ascii=False)`: fails (raises `TypeError`)
iff the result value is not representable. -/
def respToJson (d : RespDict) : Option Json :=
  match d.result with
  | .json j => some (.obj [("status", .num d.status), ("message", .str d.message),
      ("excType", .str d.excType), ("result", j)])
  | .blob _ => none

def dumpsResp (d : RespDict) : Option String := (respToJson d).map dumps

/-- The dispatcher service; `clazz_handler` is the overridable namespace
resolver (default: return the namespace unchanged). -/
structure CommonService where
  clazz_handler : Option Json → Option Json

def CommonService.default : CommonService := ⟨fun c => c⟩

/-- `CommonService.handle` (lines 73-101).  The returned `Except.error`
models an exception escaping `handle` (JSON decode failure, resolution
failure, or `json.dumps` failure — none of these are inside the `try`). -/
def CommonService.handle (svc : CommonService) (env : Env) (request : CommonRequest) :
    Except PyExc CommonResponse :=
  match loads request.request with
  | none => .error ⟨"JSONDecodeError", "Expecting value"⟩
  | some grpcRequest =>
    if grpcRequest.isObj then
      match resolveInvoke env svc.clazz_handler grpcRequest with
      | .error e => .error e
      | .ok invoke =>
        let response0 : RespDict := ⟨0, "", "", .json (.str "")⟩
        let response :=
          match invokeCall invoke (grpcRequest.get "args") (grpcRequest.get "kwargs") with
          | .ok v => { response0 with result := v }
          | .error e => { response0 with status := -1, message := e.msg, excType := e.name }
        match dumpsResp response with
        | some s => .ok ⟨s, response.status⟩
        | none => .error ⟨"TypeError", "Object is not JSON serializable"⟩
    else .error ⟨"AttributeError", "object has no attribute get"⟩

/-! ## Observability: the `rpc_log` decorator (lines 24-54)

`json_format.MessageToJson` is an external protobuf serializer; it is a
parameter.  Wall-clock timing and the constant `"type"` field are dropped;
the small branch logs the parsed response object, modelled by the full
serialized text. -/

structure RpcLogRecord where
  request_id : String
  function : String
  response : String
  hasStatus : Bool
  status : Int

def rpc_log (toJson : CommonResponse → String) (funcName : String)
    (func : CommonRequest → Except PyExc CommonResponse) (request : CommonRequest) :
    Except PyExc (CommonResponse × RpcLogRecord) :=
  match func request with
  | .error e => .error e
  | .ok response =>
    let jsonData := toJson response
    if jsonData.data.length > 1024 * 4 then
      .ok (response, ⟨request.request_id, funcName,
        ⟨jsonData.data.take (1024 * 4) ++ "...".data⟩, false, 0⟩)
    else
      .ok (response, ⟨request.request_id, funcName, jsonData, true, response.status⟩)

/-! ## Client side: endpoint registry and the `grpc_service` wrapper
(lines 104-199) -/

structure Server where
  server : String
  host : String
  port : Nat

def Server.addr (s : Server) : String := s.host ++ ":" ++ toString s.port

/-- A connected stub: one unary `handle` call. -/
def Stub := CommonRequest → CommonResponse

/-- The endpoint registry: `stubs` maps a logical server name to a stub. -/
structure GrpcClient where
  stubs : String → Option Stub

/-- `GrpcClient.connect` (lines 109-115): plain dict lookup, `None` when the
name was never loaded. -/
def GrpcClient.connect (c : GrpcClient) (server : String) : Option Stub :=
  c.stubs server

/-- The identity a declared remote function carries: `func.__module__`,
`func.__qualname__`, and its positional parameter names in order. -/
structure FuncDecl where
  module : String
  qualname : String
  params : List String

/-- `inspect.signature(func).bind(*args, **kwargs).arguments` for a
signature of plain positional-or-keyword parameters without defaults:
positional arguments bind in order, keyword arguments must cover exactly
the remaining parameters, each once.  `none` models the `TypeError`
`sig.bind` raises on a mismatched call. -/
def bindArguments (params : List String) (args : List Json)
    (kwargs : List (String × Json)) : Option (List (String × Json)) :=
  if args.length ≤ params.length
      ∧ (kwargs.map Prod.fst).Nodup
      ∧ (∀ k ∈ kwargs.map Prod.fst, k ∈ params.drop args.length)
      ∧ (∀ p ∈ params.drop args.length, p ∈ kwargs.map Prod.fst) then
    some (params.zip args ++
      (params.drop args.length).map (fun p => (p, ((kwargs.lookup p).getD .null))))
  else none

/-- Lines 176-178: `if sig.parameters.get("cls"): bind.pop("cls")` — only a
parameter literally named `cls` is removed from the bound mapping. -/
def stripCls (params : List String) (bound : List (String × Json)) :
    List (String × Json) :=
  if params.contains "cls" then bound.filter (fun kv => kv.1 ≠ "cls") else bound

/-- The Call Envelope dict built by the wrapper (lines 179-184). -/
def buildRequest (decl : FuncDecl) (args : List Json) (kwargs : List (String × Json)) :
    Option Json :=
  (bindArguments decl.params args kwargs).map fun bound =>
    .obj [("clazz", .str decl.module), ("method", .str decl.qualname),
      ("args", .arr []), ("kwargs", .obj (stripCls decl.params bound))]

/-- Client-side failures of one wrapped call. -/
inductive ClientErr where
  | bindTypeError
  | noneStub (server : String)
  | grpcException (excType : Option Json) (message : Option Json)
  | unknownGrpc
  | responseDecodeError
  | responseNotDict

/-- Python `response_json.get('status') == n` for an integer literal `n`:
`None` and non-numeric values compare unequal; booleans compare as 0/1. -/
def pyEqInt (j : Option Json) (n : Int) : Bool :=
  match j with
  | some (.num m) => m == n
  | some (.bool b) => (if b then (1 : Int) else 0) == n
  | _ => false

/-- The `wrapper` closure produced by the `grpc_service` decorator
(lines 170-199).  `requestId` stands for the fresh `uuid4` correlation id;
`serialize` is the decorator argument (default 3 = JSON). -/
def wrapper (decl : FuncDecl) (server : String) (serialize : Int) (client : GrpcClient)
    (requestId : String) (args : List Json) (kwargs : List (String × Json)) :
    Except ClientErr Json :=
  match buildRequest decl args kwargs with
  | none => .error .bindTypeError
  | some req =>
    let requestJson := dumps req
    match client.connect server with
    | none => .error (.noneStub server)
    | some stub =>
      let response := stub ⟨requestJson, serialize, requestId⟩
      match loads response.response with
      | none => .error .responseDecodeError
      | some responseJson =>
        if responseJson.isObj then
          if pyEqInt (responseJson.get "status") 0 then
            .ok ((responseJson.get "result").getD .null)
          else if pyEqInt (responseJson.get "status") (-1) then
            .error (.grpcException (responseJson.get "excType") (responseJson.get "message"))
          else .error .unknownGrpc
        else .error .responseNotDict

/-! ## Concrete fixtures for witnesses and counterexamples -/

/-- A callable returning the sum of keyword arguments `a` and `b`. -/
def addObj : PyObj := .mk (fun _ => none) (some (fun _ kwargs =>
  match kwargs.lookup "a", kwargs.lookup "b" with
  | some (.num a), some (.num b) => .ok (.json (.num (a + b)))
  | _, _ => .error ⟨"TypeError", "unsupported operand types"⟩))

/-- A callable that always raises `ValueError`. -/
def raisingObj : PyObj := .mk (fun _ => none) (some (fun _ _ =>
  .error ⟨"ValueError", "boom"⟩))

/-- A callable returning a live object the codec cannot represent. -/
def blobObj : PyObj := .mk (fun _ => none) (some (fun _ _ => .ok (.blob "socket")))

/-- A module exposing `add`, `boom` and `leak`. -/
def mathMod : PyObj := .mk
  (fun a =>
    if a = "add" then some addObj
    else if a = "boom" then some raisingObj
    else if a = "leak" then some blobObj
    else none)
  none

/-- An interpreter that can import exactly the module `math_ns`. -/
def env0 : Env := ⟨fun s => if s = "math_ns" then some mathMod else none⟩

def addEnvelope : Json := .obj [("clazz", .str "math_ns"), ("method", .str "add"),
  ("args", .arr []), ("kwargs", .obj [("a", .num 2), ("b", .num 3)])]

def addCallRequest : CommonRequest := ⟨dumps addEnvelope, 3, "rid"⟩

def addSuccessResponse : CommonResponse := ⟨dumps (.obj [("status", .num 0),
  ("message", .str ""), ("excType", .str ""), ("result", .num 5)]), 0⟩

def boomEnvelope : Json := .obj [("clazz", .str "math_ns"), ("method", .str "boom")]

def boomCallRequest : CommonRequest := ⟨dumps boomEnvelope, 3, "rid"⟩

def leakEnvelope : Json := .obj [("clazz", .str "math_ns"), ("method", .str "leak")]

def leakCallRequest : CommonRequest := ⟨dumps leakEnvelope, 3, "rid"⟩

def nopeEnvelope : Json := .obj [("clazz", .str "math_ns"), ("method", .str "missing")]

def nopeCallRequest : CommonRequest := ⟨dumps nopeEnvelope, 3, "rid"⟩

def badModEnvelope : Json := .obj [("clazz", .str "no_mod"), ("method", .str "f")]

def badModCallRequest : CommonRequest := ⟨dumps badModEnvelope, 3, "rid"⟩

/-- A stub whose server reports a handled `ValueError`. -/
def errStub : Stub := fun _ => ⟨dumps (.obj [("status", .num (-1)), ("message", .str "boom"),
  ("excType", .str "ValueError"), ("result", .str "")]), -1⟩

def client1 : GrpcClient := ⟨fun s => if s = "srv" then some errStub else none⟩

/-- A client on which no server was ever loaded. -/
def emptyClient : GrpcClient := ⟨fun _ => none⟩

def xDecl : FuncDecl := ⟨"mod", "f", ["x"]⟩

def selfDecl : FuncDecl := ⟨"mod", "C.f", ["self", "x"]⟩

def clsDecl : FuncDecl := ⟨"mod", "C.g", ["cls", "a"]⟩

def bigString : String := ⟨List.replicate 5000 'a'⟩

def okResponse : CommonResponse := ⟨"ok", 0⟩


/-! ## Round-trip: digits -/

theorem digitChar_isDigit (d : Nat) (h : d < 10) : (digitChar d).isDigit = true := by
  interval_cases d <;> decide

theorem charToDigit_digitChar (d : Nat) (h : d < 10) : charToDigit (digitChar d) = d := by
  interval_cases d <;> decide

theorem natChars_ne_nil (n : Nat) : natChars n ≠ [] := by
  unfold natChars
  split
  · simp
  · rename_i h
    simp [Nat.digits_ne_nil_iff_ne_zero, h]

theorem natChars_all_digits (n : Nat) : ∀ c ∈ natChars n, c.isDigit = true := by
  unfold natChars
  split
  · intro c hc
    simp at hc
    subst hc
    decide
  · rename_i h
    intro c hc
    simp only [List.mem_reverse, List.mem_map] at hc
    obtain ⟨d, hd, rfl⟩ := hc
    exact digitChar_isDigit d (Nat.digits_lt_base (by norm_num) hd)

theorem foldr_charToDigit (L : List Nat) (h : ∀ d ∈ L, d < 10) (acc : Nat) :
    L.foldr (fun d a => a * 10 + charToDigit (digitChar d)) acc
      = L.foldr (fun d a => a * 10 + d) acc := by
  induction L with
  | nil => rfl
  | cons d L ih =>
    simp only [List.foldr_cons]
    rw [ih (fun x hx => h x (List.mem_cons_of_mem _ hx)),
      charToDigit_digitChar d (h d (List.mem_cons_self _ _))]

theorem foldr_eq_ofDigits (L : List Nat) :
    L.foldr (fun d a => a * 10 + d) 0 = Nat.ofDigits 10 L := by
  induction L with
  | nil => rfl
  | cons d L ih =>
    simp only [List.foldr_cons, Nat.ofDigits_cons, ih]
    omega

theorem parseNatChars_natChars (n : Nat) : parseNatChars (natChars n) = n := by
  unfold parseNatChars natChars
  split
  · rename_i h
    subst h
    decide
  · rw [List.foldl_reverse, List.foldr_map]
    have h10 : ∀ d ∈ Nat.digits 10 n, d < 10 :=
      fun d hd => Nat.digits_lt_base (by norm_num) hd
    calc (Nat.digits 10 n).foldr (fun x y => y * 10 + charToDigit (digitChar x)) 0
        = (Nat.digits 10 n).foldr (fun d a => a * 10 + d) 0 :=
          foldr_charToDigit _ h10 0
      _ = Nat.ofDigits 10 (Nat.digits 10 n) := foldr_eq_ofDigits _
      _ = n := by exact_mod_cast Nat.ofDigits_digits 10 n

theorem takeWhile_append_all {p : Char → Bool} {l1 l2 : List Char}
    (h1 : ∀ c ∈ l1, p c = true) (h2 : ∀ c ∈ l2.head?, p c = false) :
    (l1 ++ l2).takeWhile p = l1 ∧ (l1 ++ l2).dropWhile p = l2 := by
  induction l1 with
  | nil =>
    simp only [List.nil_append]
    cases l2 with
    | nil => simp
    | cons c t =>
      have hc : p c = false := h2 c (by simp)
      simp [List.takeWhile_cons, List.dropWhile_cons, hc]
  | cons c t ih =>
    have hc : p c = true := h1 c (List.mem_cons_self _ _)
    have ih' := ih (fun x hx => h1 x (List.mem_cons_of_mem _ hx))
    simp [List.takeWhile_cons, List.dropWhile_cons, hc, ih'.1, ih'.2]


/-! ## Round-trip: character classes and whitespace -/

theorem ne_of_isDigit {c x : Char} (hc : c.isDigit = true) (hx : x.isDigit = false) :
    c ≠ x := by
  rintro rfl
  rw [hc] at hx
  exact Bool.noConfusion hx

theorem isWsChar_of_isDigit {c : Char} (hc : c.isDigit = true) : isWsChar c = false := by
  have h1 : c ≠ ' ' := ne_of_isDigit hc (by decide)
  have h2 : c ≠ '\t' := ne_of_isDigit hc (by decide)
  have h3 : c ≠ '\n' := ne_of_isDigit hc (by decide)
  have h4 : c ≠ '\r' := ne_of_isDigit hc (by decide)
  simp [isWsChar, h1, h2, h3, h4]

theorem skipWs_cons_not_ws {c : Char} (h : isWsChar c = false) (t : List Char) :
    skipWs (c :: t) = c :: t := by
  simp [skipWs, List.dropWhile_cons, h]

theorem skipWs_cons_space (t : List Char) : skipWs (' ' :: t) = skipWs t := by
  have h : isWsChar ' ' = true := by decide
  simp [skipWs, List.dropWhile_cons, h]

theorem natChars_cons_goodStart (m : Nat) : ∃ c t, natChars m = c :: t ∧ goodStart c := by
  cases h : natChars m with
  | nil => exact absurd h (natChars_ne_nil m)
  | cons c t =>
    have hc : c.isDigit = true := natChars_all_digits m c (h ▸ List.mem_cons_self _ _)
    exact ⟨c, t, rfl,
      isWsChar_of_isDigit hc, ne_of_isDigit hc (by decide), ne_of_isDigit hc (by decide)⟩

theorem renderJson_cons (v : Json) : ∃ c t, renderJson v = c :: t ∧ goodStart c := by
  cases v with
  | null =>
    exact ⟨'n', ['u', 'l', 'l'], by rw [renderJson.eq_def], ⟨by decide, by decide, by decide⟩⟩
  | bool b =>
    cases b with
    | true =>
      exact ⟨'t', ['r', 'u', 'e'], by rw [renderJson.eq_def], ⟨by decide, by decide, by decide⟩⟩
    | false =>
      exact ⟨'f', ['a', 'l', 's', 'e'], by rw [renderJson.eq_def],
        ⟨by decide, by decide, by decide⟩⟩
  | num n =>
    by_cases hn : n < 0
    · exact ⟨'-', natChars (-n).toNat, by rw [renderJson.eq_def]; simp [intChars, hn],
        ⟨by decide, by decide, by decide⟩⟩
    · obtain ⟨c, t, h, hgs⟩ := natChars_cons_goodStart n.toNat
      exact ⟨c, t, by rw [renderJson.eq_def]; simp [intChars, hn, h], hgs⟩
  | str s =>
    exact ⟨'"', escapeChars s.data ++ ['"'], by rw [renderJson.eq_def]; rfl,
      ⟨by decide, by decide, by decide⟩⟩
  | arr xs =>
    cases xs with
    | nil => exact ⟨'[', [']'], by rw [renderJson.eq_def], ⟨by decide, by decide, by decide⟩⟩
    | cons x xs =>
      exact ⟨'[', renderJson x ++ renderArrTail xs ++ [']'], by rw [renderJson.eq_def],
        ⟨by decide, by decide, by decide⟩⟩
  | obj kvs =>
    cases kvs with
    | nil => exact ⟨'{', ['}'], by rw [renderJson.eq_def], ⟨by decide, by decide, by decide⟩⟩
    | cons kv kvs =>
      exact ⟨'{', renderMember kv ++ renderObjTail kvs ++ ['}'], by rw [renderJson.eq_def],
        ⟨by decide, by decide, by decide⟩⟩

theorem skipWs_renderJson_append (v : Json) (r : List Char) :
    skipWs (renderJson v ++ r) = renderJson v ++ r := by
  obtain ⟨c, t, hv, hgs⟩ := renderJson_cons v
  rw [hv, List.cons_append]
  exact skipWs_cons_not_ws hgs.1 _

/-! ## Round-trip: strings -/

theorem hexDigitChar_isHex (d : Nat) (h : d < 16) : isHexDigit (hexDigitChar d) = true := by
  interval_cases d <;> decide

theorem hexVal_hexDigitChar (d : Nat) (h : d < 16) : hexVal (hexDigitChar d) = d := by
  interval_cases d <;> decide

theorem parseStringBody_escapeChars (s : List Char) (rest : List Char) :
    parseStringBody (escapeChars s ++ '"' :: rest) = some (s, rest) := by
  induction s with
  | nil =>
    rw [escapeChars, List.nil_append, parseStringBody.eq_def]
    simp
  | cons c s ih =>
    rw [escapeChars, List.append_assoc]
    by_cases h1 : c = '"'
    · subst h1
      simp +decide only [escapeChar, if_true, if_false]
      rw [List.cons_append, List.cons_append, List.nil_append, parseStringBody.eq_def]
      simp +decide [simpleEscape, ih]
    by_cases h2 : c = '\\'
    · subst h2
      simp +decide only [escapeChar, if_true, if_false]
      rw [List.cons_append, List.cons_append, List.nil_append, parseStringBody.eq_def]
      simp +decide [simpleEscape, ih]
    by_cases h3 : c = '\n'
    · subst h3
      simp +decide only [escapeChar, if_true, if_false]
      rw [List.cons_append, List.cons_append, List.nil_append, parseStringBody.eq_def]
      simp +decide [simpleEscape, ih]
    by_cases h4 : c = '\t'
    · subst h4
      simp +decide only [escapeChar, if_true, if_false]
      rw [List.cons_append, List.cons_append, List.nil_append, parseStringBody.eq_def]
      simp +decide [simpleEscape, ih]
    by_cases h5 : c = '\r'
    · subst h5
      simp +decide only [escapeChar, if_true, if_false]
      rw [List.cons_append, List.cons_append, List.nil_append, parseStringBody.eq_def]
      simp +decide [simpleEscape, ih]
    by_cases h6 : c = Char.ofNat 8
    · subst h6
      simp +decide only [escapeChar, if_true, if_false]
      rw [List.cons_append, List.cons_append, List.nil_append, parseStringBody.eq_def]
      simp +decide [simpleEscape, ih]
    by_cases h7 : c = Char.ofNat 12
    · subst h7
      simp +decide only [escapeChar, if_true, if_false]
      rw [List.cons_append, List.cons_append, List.nil_append, parseStringBody.eq_def]
      simp +decide [simpleEscape, ih]
    by_cases h8 : c.toNat < 32
    · have hd1 : c.toNat / 16 < 16 := by omega
      have hd2 : c.toNat % 16 < 16 := by omega
      simp only [escapeChar, h1, h2, h3, h4, h5, h6, h7, h8, if_false, if_true,
        ite_false, ite_true, if_pos, List.cons_append, List.nil_append]
      rw [parseStringBody.eq_def]
      simp +decide only []
      rw [hexDigitChar_isHex _ hd1, hexDigitChar_isHex _ hd2]
      simp +decide only [ih]
      rw [hexVal_hexDigitChar _ hd1, hexVal_hexDigitChar _ hd2]
      have hval : ((hexVal '0' * 16 + hexVal '0') * 16 + c.toNat / 16) * 16 + c.toNat % 16
          = c.toNat := by
        have h0 : hexVal '0' = 0 := by decide
        rw [h0]
        omega
      rw [hval, Char.ofNat_toNat]
      simp only [if_true, if_false]
    · simp only [escapeChar, h1, h2, h3, h4, h5, h6, h7, h8, if_false, if_true,
        ite_false, ite_true, List.cons_append, List.nil_append]
      rw [parseStringBody.eq_def]
      simp [h1, h2, h8, ih]

/-! ## Round-trip: fuel accounting and induction principle -/


/-- Strong induction over nested `Json` values. -/
theorem Json.strongInd (P : Json → Prop)
    (hnull : P .null)
    (hbool : ∀ b, P (.bool b))
    (hnum : ∀ n, P (.num n))
    (hstr : ∀ s, P (.str s))
    (harr : ∀ xs, (∀ x ∈ xs, P x) → P (.arr xs))
    (hobj : ∀ kvs, (∀ kv ∈ kvs, P kv.2) → P (.obj kvs)) :
    ∀ v, P v := fun v =>
  Json.rec (motive_1 := P)
    (motive_2 := fun xs => ∀ x ∈ xs, P x)
    (motive_3 := fun kvs => ∀ kv ∈ kvs, P kv.2)
    (motive_4 := fun kv => P kv.2)
    hnull hbool hnum hstr
    (fun xs ih => harr xs ih)
    (fun kvs ih => hobj kvs ih)
    (by intro x hx; cases hx)
    (by intro hd tl hhd htl x hx
        cases hx with
        | head => exact hhd
        | tail _ h2 => exact htl x h2)
    (by intro kv hkv; cases hkv)
    (by intro hd tl hhd htl kv hkv
        cases hkv with
        | head => exact hhd
        | tail _ h2 => exact htl kv h2)
    (fun _ snd hsnd => hsnd)
    v

/-! Constructor-level equations for the renderer and the fuel bound (the
mutual well-founded definitions do not unfold by `simp [f]` alone). -/

theorem renderJson_null : renderJson .null = ['n', 'u', 'l', 'l'] := by
  rw [renderJson.eq_def]

theorem renderJson_true : renderJson (.bool true) = ['t', 'r', 'u', 'e'] := by
  rw [renderJson.eq_def]

theorem renderJson_false : renderJson (.bool false) = ['f', 'a', 'l', 's', 'e'] := by
  rw [renderJson.eq_def]

theorem renderJson_num (n : Int) : renderJson (.num n) = intChars n := by
  rw [renderJson.eq_def]

theorem renderJson_str (s : String) : renderJson (.str s) = renderString s := by
  rw [renderJson.eq_def]

theorem renderJson_arr_nil : renderJson (.arr []) = ['[', ']'] := by
  rw [renderJson.eq_def]

theorem renderJson_arr_cons (x : Json) (xs : List Json) :
    renderJson (.arr (x :: xs)) = '[' :: (renderJson x ++ renderArrTail xs ++ [']']) := by
  rw [renderJson.eq_def]

theorem renderJson_obj_nil : renderJson (.obj []) = ['{', '}'] := by
  rw [renderJson.eq_def]

theorem renderJson_obj_cons (kv : String × Json) (kvs : List (String × Json)) :
    renderJson (.obj (kv :: kvs)) = '{' :: (renderMember kv ++ renderObjTail kvs ++ ['}']) := by
  rw [renderJson.eq_def]

theorem renderArrTail_nil : renderArrTail [] = [] := by
  rw [renderArrTail.eq_def]

theorem renderArrTail_cons (x : Json) (xs : List Json) :
    renderArrTail (x :: xs) = ',' :: ' ' :: (renderJson x ++ renderArrTail xs) := by
  rw [renderArrTail.eq_def]

theorem renderMember_eq (k : String) (v : Json) :
    renderMember (k, v) = renderString k ++ ':' :: ' ' :: renderJson v := by
  rw [renderMember.eq_def]

theorem renderObjTail_nil : renderObjTail [] = [] := by
  rw [renderObjTail.eq_def]

theorem renderObjTail_cons (kv : String × Json) (kvs : List (String × Json)) :
    renderObjTail (kv :: kvs) = ',' :: ' ' :: (renderMember kv ++ renderObjTail kvs) := by
  rw [renderObjTail.eq_def]

theorem fuelV_null : fuelV .null = 1 := by rw [fuelV.eq_def]

theorem fuelV_bool (b : Bool) : fuelV (.bool b) = 1 := by rw [fuelV.eq_def]

theorem fuelV_num (n : Int) : fuelV (.num n) = 1 := by rw [fuelV.eq_def]

theorem fuelV_str (s : String) : fuelV (.str s) = 1 := by rw [fuelV.eq_def]

theorem fuelV_arr_nil : fuelV (.arr []) = 1 := by rw [fuelV.eq_def]

theorem fuelV_arr_cons (x : Json) (xs : List Json) :
    fuelV (.arr (x :: xs)) = 1 + fuelV x + fuelT xs := by rw [fuelV.eq_def]

theorem fuelV_obj_nil : fuelV (.obj []) = 1 := by rw [fuelV.eq_def]

theorem fuelV_obj_cons (kv : String × Json) (kvs : List (String × Json)) :
    fuelV (.obj (kv :: kvs)) = 1 + fuelM kv + fuelOT kvs := by rw [fuelV.eq_def]

theorem fuelT_nil : fuelT [] = 1 := by rw [fuelT.eq_def]

theorem fuelT_cons (x : Json) (xs : List Json) :
    fuelT (x :: xs) = 1 + fuelV x + fuelT xs := by rw [fuelT.eq_def]

theorem fuelM_eq (k : String) (v : Json) : fuelM (k, v) = 1 + fuelV v := by
  rw [fuelM.eq_def]

theorem fuelOT_nil : fuelOT [] = 1 := by rw [fuelOT.eq_def]

theorem fuelOT_cons (kv : String × Json) (kvs : List (String × Json)) :
    fuelOT (kv :: kvs) = 1 + fuelM kv + fuelOT kvs := by rw [fuelOT.eq_def]

/-! ## Round-trip: values -/

theorem noLeadDigit_nil : noLeadDigit [] := by
  intro c hc
  simp at hc

theorem noLeadDigit_cons {c : Char} (h : c.isDigit = false) (t : List Char) :
    noLeadDigit (c :: t) := by
  intro x hx
  simp at hx
  exact hx ▸ h

/-- One-step unfolding of `parseVal` on positive fuel. -/
theorem parseVal_succ (fuel : Nat) (cs : List Char) :
    parseVal (fuel + 1) cs =
      match skipWs cs with
      | [] => none
      | c :: rest =>
        if c = 'n' then
          match rest with
          | 'u' :: 'l' :: 'l' :: r => some (.null, r)
          | _ => none
        else if c = 't' then
          match rest with
          | 'r' :: 'u' :: 'e' :: r => some (.bool true, r)
          | _ => none
        else if c = 'f' then
          match rest with
          | 'a' :: 'l' :: 's' :: 'e' :: r => some (.bool false, r)
          | _ => none
        else if c = '"' then
          match parseStringBody rest with
          | some (s, r) => some (.str ⟨s⟩, r)
          | none => none
        else if c = '[' then
          match skipWs rest with
          | [] => none
          | c1 :: r1 =>
            if c1 = ']' then some (.arr [], r1)
            else
              match parseVal fuel (c1 :: r1) with
              | some (v, r) =>
                match parseArrTail fuel r with
                | some (vs, r2) => some (.arr (v :: vs), r2)
                | none => none
              | none => none
        else if c = '{' then
          match skipWs rest with
          | [] => none
          | c1 :: r1 =>
            if c1 = '}' then some (.obj [], r1)
            else
              match parseMember fuel (c1 :: r1) with
              | some (kv, r) =>
                match parseObjTail fuel r with
                | some (kvs, r2) => some (.obj (kv :: kvs), r2)
                | none => none
              | none => none
        else if c = '-' then
          match rest.takeWhile Char.isDigit with
          | [] => none
          | ds => some (.num (-(parseNatChars ds : Int)), rest.dropWhile Char.isDigit)
        else if c.isDigit then
          some (.num (parseNatChars ((c :: rest).takeWhile Char.isDigit) : Int),
            (c :: rest).dropWhile Char.isDigit)
        else none := rfl

/-- One-step unfolding of `parseMember` on positive fuel. -/
theorem parseMember_succ (fuel : Nat) (cs : List Char) :
    parseMember (fuel + 1) cs =
      match skipWs cs with
      | '"' :: rest =>
        match parseStringBody rest with
        | some (k, r) =>
          match skipWs r with
          | ':' :: r2 =>
            match parseVal fuel r2 with
            | some (v, r3) => some ((⟨k⟩, v), r3)
            | none => none
          | _ => none
        | none => none
      | _ => none := rfl

/-- One-step unfolding of `parseArrTail` on positive fuel. -/
theorem parseArrTail_succ (fuel : Nat) (cs : List Char) :
    parseArrTail (fuel + 1) cs =
      match skipWs cs with
      | ']' :: r => some ([], r)
      | ',' :: r =>
        match parseVal fuel r with
        | some (v, r1) =>
          match parseArrTail fuel r1 with
          | some (vs, r2) => some (v :: vs, r2)
          | none => none
        | none => none
      | _ => none := rfl

/-- One-step unfolding of `parseObjTail` on positive fuel. -/
theorem parseObjTail_succ (fuel : Nat) (cs : List Char) :
    parseObjTail (fuel + 1) cs =
      match skipWs cs with
      | '}' :: r => some ([], r)
      | ',' :: r =>
        match parseMember fuel r with
        | some (kv, r1) =>
          match parseObjTail fuel r1 with
          | some (kvs, r2) => some (kv :: kvs, r2)
          | none => none
        | none => none
      | _ => none := rfl

/-- `parseVal` ignores a leading space. -/
theorem parseVal_cons_space (n : Nat) (X : List Char) :
    parseVal (n + 1) (' ' :: X) = parseVal (n + 1) X := by
  rw [parseVal_succ, parseVal_succ, skipWs_cons_space]

theorem parseVal_intChars (n : Int) (fuel : Nat) (rest : List Char)
    (hrest : noLeadDigit rest) :
    parseVal (fuel + 1) (intChars n ++ rest) = some (.num n, rest) := by
  by_cases hn : n < 0
  · obtain ⟨c, t, hnat, hgs⟩ := natChars_cons_goodStart (-n).toNat
    have hc : c.isDigit = true := natChars_all_digits _ c (hnat ▸ List.mem_cons_self _ _)
    have htw : ((natChars (-n).toNat ++ rest).takeWhile Char.isDigit = natChars (-n).toNat)
        ∧ ((natChars (-n).toNat ++ rest).dropWhile Char.isDigit = rest) :=
      takeWhile_append_all (natChars_all_digits _) hrest
    rw [parseVal_succ]
    simp only [intChars, if_pos hn, List.cons_append]
    rw [skipWs_cons_not_ws (by decide)]
    simp +decide only [if_true, if_false]
    rw [htw.1, htw.2, hnat]
    simp only []
    rw [← hnat, parseNatChars_natChars]
    have : ((-n).toNat : Int) = -n := Int.toNat_of_nonneg (by omega)
    rw [this]
    simp
  · obtain ⟨c, t, hnat, hgs⟩ := natChars_cons_goodStart n.toNat
    have hc : c.isDigit = true := natChars_all_digits _ c (hnat ▸ List.mem_cons_self _ _)
    have htw : ((natChars n.toNat ++ rest).takeWhile Char.isDigit = natChars n.toNat)
        ∧ ((natChars n.toNat ++ rest).dropWhile Char.isDigit = rest) :=
      takeWhile_append_all (natChars_all_digits _) hrest
    rw [parseVal_succ]
    simp only [intChars, if_neg hn]
    rw [hnat, List.cons_append, skipWs_cons_not_ws (isWsChar_of_isDigit hc)]
    have e1 : (c = 'n') = False := eq_false (ne_of_isDigit hc (by decide))
    have e2 : (c = 't') = False := eq_false (ne_of_isDigit hc (by decide))
    have e3 : (c = 'f') = False := eq_false (ne_of_isDigit hc (by decide))
    have e4 : (c = '"') = False := eq_false (ne_of_isDigit hc (by decide))
    have e5 : (c = '[') = False := eq_false (ne_of_isDigit hc (by decide))
    have e6 : (c = '{') = False := eq_false (ne_of_isDigit hc (by decide))
    have e7 : (c = '-') = False := eq_false (ne_of_isDigit hc (by decide))
    simp only [e1, e2, e3, e4, e5, e6, e7, if_false, hc, if_true,
      ← List.cons_append, ← hnat, htw.1, htw.2]
    rw [parseNatChars_natChars]
    have : (n.toNat : Int) = n := Int.toNat_of_nonneg (by omega)
    rw [this]

theorem parseVal_space_any (n : Nat) (X : List Char) :
    parseVal n (' ' :: X) = parseVal n X := by
  cases n with
  | zero => rfl
  | succ m => exact parseVal_cons_space m X

/-- `parseMember` ignores a leading space. -/
theorem parseMember_space_any (n : Nat) (X : List Char) :
    parseMember n (' ' :: X) = parseMember n X := by
  cases n with
  | zero => rfl
  | succ m => rw [parseMember_succ, parseMember_succ, skipWs_cons_space]

theorem noLeadDigit_renderArrTail (xs : List Json) (rest : List Char) :
    noLeadDigit (renderArrTail xs ++ ']' :: rest) := by
  cases xs with
  | nil => rw [renderArrTail_nil, List.nil_append]; exact noLeadDigit_cons (by decide) _
  | cons x xs => rw [renderArrTail_cons, List.cons_append]; exact noLeadDigit_cons (by decide) _

theorem noLeadDigit_renderObjTail (kvs : List (String × Json)) (rest : List Char) :
    noLeadDigit (renderObjTail kvs ++ '}' :: rest) := by
  cases kvs with
  | nil => rw [renderObjTail_nil, List.nil_append]; exact noLeadDigit_cons (by decide) _
  | cons kv kvs => rw [renderObjTail_cons, List.cons_append]; exact noLeadDigit_cons (by decide) _

theorem parseMember_renderMember (k : String) (v : Json)
    (IHv : ∀ fuel rest, noLeadDigit rest →
      parseVal (fuelV v + fuel) (renderJson v ++ rest) = some (v, rest))
    (fuel : Nat) (rest : List Char) (hrest : noLeadDigit rest) :
    parseMember (fuelM (k, v) + fuel) (renderMember (k, v) ++ rest) = some ((k, v), rest) := by
  have hfuel : fuelM (k, v) + fuel = (fuelV v + fuel) + 1 := by rw [fuelM_eq]; omega
  rw [hfuel, parseMember_succ, renderMember_eq, renderString]
  simp only [List.cons_append, List.append_assoc, List.singleton_append, List.nil_append]
  rw [skipWs_cons_not_ws (by decide)]
  simp only []
  rw [parseStringBody_escapeChars]
  simp only []
  rw [skipWs_cons_not_ws (by decide)]
  simp only []
  rw [parseVal_space_any, IHv fuel rest hrest]

theorem parseArrTail_renderArrTail (xs : List Json)
    (IH : ∀ x ∈ xs, ∀ fuel rest, noLeadDigit rest →
      parseVal (fuelV x + fuel) (renderJson x ++ rest) = some (x, rest)) :
    ∀ fuel rest, parseArrTail (fuelT xs + fuel) (renderArrTail xs ++ ']' :: rest)
      = some (xs, rest) := by
  induction xs with
  | nil =>
    intro fuel rest
    have hfuel : fuelT ([] : List Json) + fuel = fuel + 1 := by rw [fuelT_nil]; omega
    rw [hfuel, renderArrTail_nil, List.nil_append, parseArrTail_succ,
      skipWs_cons_not_ws (by decide)]
    rfl
  | cons x xs ihx =>
    intro fuel rest
    have hfuel : fuelT (x :: xs) + fuel = (fuelV x + (fuelT xs + fuel)) + 1 := by
      rw [fuelT_cons]; omega
    rw [hfuel, renderArrTail_cons, parseArrTail_succ]
    simp only [List.cons_append, List.append_assoc]
    rw [skipWs_cons_not_ws (by decide)]
    simp only []
    rw [parseVal_space_any,
      IH x (List.mem_cons_self _ _) (fuelT xs + fuel) _ (noLeadDigit_renderArrTail xs rest)]
    simp only []
    have hcomm : fuelV x + (fuelT xs + fuel) = fuelT xs + (fuelV x + fuel) := by omega
    rw [hcomm, ihx (fun y hy => IH y (List.mem_cons_of_mem _ hy)) (fuelV x + fuel) rest]

theorem parseObjTail_renderObjTail (kvs : List (String × Json))
    (IH : ∀ kv ∈ kvs, ∀ fuel rest, noLeadDigit rest →
      parseVal (fuelV kv.2 + fuel) (renderJson kv.2 ++ rest) = some (kv.2, rest)) :
    ∀ fuel rest, parseObjTail (fuelOT kvs + fuel) (renderObjTail kvs ++ '}' :: rest)
      = some (kvs, rest) := by
  induction kvs with
  | nil =>
    intro fuel rest
    have hfuel : fuelOT ([] : List (String × Json)) + fuel = fuel + 1 := by
      rw [fuelOT_nil]; omega
    rw [hfuel, renderObjTail_nil, List.nil_append, parseObjTail_succ,
      skipWs_cons_not_ws (by decide)]
    rfl
  | cons kv kvs ihkv =>
    intro fuel rest
    obtain ⟨k, v⟩ := kv
    have hfuel : fuelOT ((k, v) :: kvs) + fuel = (fuelM (k, v) + (fuelOT kvs + fuel)) + 1 := by
      rw [fuelOT_cons]; omega
    rw [hfuel, renderObjTail_cons, parseObjTail_succ]
    simp only [List.cons_append, List.append_assoc]
    rw [skipWs_cons_not_ws (by decide)]
    simp only []
    have hv := IH (k, v) (List.mem_cons_self _ _)
    have hm := parseMember_renderMember k v hv (fuelOT kvs + fuel)
      (renderObjTail kvs ++ '}' :: rest) (noLeadDigit_renderObjTail kvs rest)
    rw [parseMember_space_any, hm]
    simp only []
    have hcomm : fuelM (k, v) + (fuelOT kvs + fuel) = fuelOT kvs + (fuelM (k, v) + fuel) := by
      omega
    rw [hcomm, ihkv (fun y hy => IH y (List.mem_cons_of_mem _ hy)) (fuelM (k, v) + fuel) rest]

theorem parseVal_renderJson (v : Json) :
    ∀ fuel rest, noLeadDigit rest →
      parseVal (fuelV v + fuel) (renderJson v ++ rest) = some (v, rest) := by
  induction v using Json.strongInd with
  | hnull =>
    intro fuel rest _
    have hfuel : fuelV .null + fuel = fuel + 1 := by rw [fuelV_null]; omega
    rw [hfuel, renderJson_null, parseVal_succ]
    simp only [List.cons_append, List.nil_append]
    rw [skipWs_cons_not_ws (by decide)]
    rfl
  | hbool b =>
    intro fuel rest _
    have hfuel : fuelV (.bool b) + fuel = fuel + 1 := by rw [fuelV_bool]; omega
    cases b with
    | true =>
      rw [hfuel, renderJson_true, parseVal_succ]
      simp only [List.cons_append, List.nil_append]
      rw [skipWs_cons_not_ws (by decide)]
      rfl
    | false =>
      rw [hfuel, renderJson_false, parseVal_succ]
      simp only [List.cons_append, List.nil_append]
      rw [skipWs_cons_not_ws (by decide)]
      rfl
  | hnum n =>
    intro fuel rest hrest
    have hfuel : fuelV (.num n) + fuel = fuel + 1 := by rw [fuelV_num]; omega
    rw [hfuel, renderJson_num]
    exact parseVal_intChars n fuel rest hrest
  | hstr s =>
    intro fuel rest _
    have hfuel : fuelV (.str s) + fuel = fuel + 1 := by rw [fuelV_str]; omega
    rw [hfuel, renderJson_str, renderString, parseVal_succ]
    simp only [List.cons_append, List.append_assoc, List.singleton_append, List.nil_append]
    rw [skipWs_cons_not_ws (by decide)]
    simp only []
    rw [parseStringBody_escapeChars]
    rfl
  | harr xs IH =>
    intro fuel rest hrest
    cases xs with
    | nil =>
      have hfuel : fuelV (.arr []) + fuel = fuel + 1 := by rw [fuelV_arr_nil]; omega
      rw [hfuel, renderJson_arr_nil, parseVal_succ]
      simp only [List.cons_append, List.nil_append]
      rw [skipWs_cons_not_ws (by decide)]
      simp only []
      rw [skipWs_cons_not_ws (by decide)]
      rfl
    | cons x xs =>
      have hfuel : fuelV (.arr (x :: xs)) + fuel
          = (fuelV x + (fuelT xs + fuel)) + 1 := by rw [fuelV_arr_cons]; omega
      rw [hfuel, renderJson_arr_cons, parseVal_succ]
      simp only [List.cons_append, List.append_assoc, List.singleton_append, List.nil_append]
      rw [skipWs_cons_not_ws (by decide)]
      simp only []
      simp +decide only [if_true, if_false]
      rw [skipWs_renderJson_append]
      obtain ⟨c, t, hx, hgs⟩ := renderJson_cons x
      rw [hx, List.cons_append]
      simp only [eq_false hgs.2.1, if_false]
      rw [← List.cons_append, ← hx,
        IH x (List.mem_cons_self _ _) (fuelT xs + fuel) _ (noLeadDigit_renderArrTail xs rest)]
      simp only []
      have hcomm : fuelV x + (fuelT xs + fuel) = fuelT xs + (fuelV x + fuel) := by omega
      rw [hcomm,
        parseArrTail_renderArrTail xs (fun y hy => IH y (List.mem_cons_of_mem _ hy))
          (fuelV x + fuel) rest]
  | hobj kvs IH =>
    intro fuel rest hrest
    cases kvs with
    | nil =>
      have hfuel : fuelV (.obj []) + fuel = fuel + 1 := by rw [fuelV_obj_nil]; omega
      rw [hfuel, renderJson_obj_nil, parseVal_succ]
      simp only [List.cons_append, List.nil_append]
      rw [skipWs_cons_not_ws (by decide)]
      simp only []
      rw [skipWs_cons_not_ws (by decide)]
      rfl
    | cons kv kvs =>
      obtain ⟨k, v⟩ := kv
      have hfuel : fuelV (.obj ((k, v) :: kvs)) + fuel
          = (fuelM (k, v) + (fuelOT kvs + fuel)) + 1 := by rw [fuelV_obj_cons]; omega
      rw [hfuel, renderJson_obj_cons, parseVal_succ]
      simp only [List.cons_append, List.append_assoc, List.singleton_append, List.nil_append]
      rw [skipWs_cons_not_ws (by decide)]
      simp only []
      simp +decide only [if_true, if_false]
      rw [renderMember_eq, renderString]
      simp only [List.cons_append, List.append_assoc, List.singleton_append, List.nil_append]
      rw [skipWs_cons_not_ws (by decide)]
      simp only []
      simp +decide only [if_true, if_false]
      have hv := IH (k, v) (List.mem_cons_self _ _)
      have hm := parseMember_renderMember k v hv (fuelOT kvs + fuel)
        (renderObjTail kvs ++ '}' :: rest) (noLeadDigit_renderObjTail kvs rest)
      rw [renderMember_eq, renderString] at hm
      simp only [List.cons_append, List.append_assoc, List.singleton_append,
        List.nil_append] at hm
      rw [hm]
      simp only []
      have hcomm : fuelM (k, v) + (fuelOT kvs + fuel) = fuelOT kvs + (fuelM (k, v) + fuel) := by
        omega
      rw [hcomm,
        parseObjTail_renderObjTail kvs (fun y hy => IH y (List.mem_cons_of_mem _ hy))
          (fuelM (k, v) + fuel) rest]

/-! ## Round-trip: `loads` after `dumps` -/

theorem fuelT_le (xs : List Json)
    (IH : ∀ x ∈ xs, fuelV x ≤ (renderJson x).length + 1) :
    fuelT xs ≤ (renderArrTail xs).length + 1 := by
  induction xs with
  | nil => rw [fuelT_nil, renderArrTail_nil]; simp
  | cons x xs ihx =>
    rw [fuelT_cons, renderArrTail_cons]
    have h1 := IH x (List.mem_cons_self _ _)
    have h2 := ihx (fun y hy => IH y (List.mem_cons_of_mem _ hy))
    simp only [List.length_cons, List.length_append]
    omega

theorem fuelOT_le (kvs : List (String × Json))
    (IH : ∀ kv ∈ kvs, fuelV kv.2 ≤ (renderJson kv.2).length + 1) :
    fuelOT kvs ≤ (renderObjTail kvs).length + 1 := by
  induction kvs with
  | nil => rw [fuelOT_nil, renderObjTail_nil]; simp
  | cons kv kvs ihkv =>
    obtain ⟨k, v⟩ := kv
    rw [fuelOT_cons, renderObjTail_cons, fuelM_eq, renderMember_eq]
    have h1 : fuelV v ≤ (renderJson v).length + 1 := IH (k, v) (List.mem_cons_self _ _)
    have h2 := ihkv (fun y hy => IH y (List.mem_cons_of_mem _ hy))
    simp only [List.length_cons, List.length_append] at h2 ⊢
    omega

theorem fuelV_le (v : Json) : fuelV v ≤ (renderJson v).length + 1 := by
  induction v using Json.strongInd with
  | hnull => rw [fuelV_null, renderJson_null]; simp
  | hbool b =>
    rw [fuelV_bool]
    cases b with
    | true => rw [renderJson_true]; simp
    | false => rw [renderJson_false]; simp
  | hnum n => rw [fuelV_num, renderJson_num]; omega
  | hstr s => rw [fuelV_str, renderJson_str]; omega
  | harr xs IH =>
    cases xs with
    | nil => rw [fuelV_arr_nil, renderJson_arr_nil]; simp
    | cons x xs =>
      rw [fuelV_arr_cons, renderJson_arr_cons]
      have h1 := IH x (List.mem_cons_self _ _)
      have h2 := fuelT_le xs (fun y hy => IH y (List.mem_cons_of_mem _ hy))
      simp only [List.length_cons, List.length_append]
      omega
  | hobj kvs IH =>
    cases kvs with
    | nil => rw [fuelV_obj_nil, renderJson_obj_nil]; simp
    | cons kv kvs =>
      obtain ⟨k, v⟩ := kv
      rw [fuelV_obj_cons, renderJson_obj_cons, fuelM_eq, renderMember_eq]
      have h1 : fuelV v ≤ (renderJson v).length + 1 := IH (k, v) (List.mem_cons_self _ _)
      have h2 := fuelOT_le kvs (fun y hy => IH y (List.mem_cons_of_mem _ hy))
      simp only [List.length_cons, List.length_append] at h2 ⊢
      omega

/-- The envelope codec round-trips: decoding an encoded value reproduces it
exactly. -/
theorem loads_dumps (v : Json) : loads (dumps v) = some v := by
  have hle := fuelV_le v
  have key := parseVal_renderJson v ((renderJson v).length + 1 - fuelV v) [] noLeadDigit_nil
  have hf : fuelV v + ((renderJson v).length + 1 - fuelV v) = (renderJson v).length + 1 := by
    omega
  rw [hf, List.append_nil] at key
  show (match parseVal ((dumps v).data.length + 1) (dumps v).data with
    | some (w, rest) => if skipWs rest = [] then some w else none
    | none => none) = some v
  have hdata : (dumps v).data = renderJson v := rfl
  rw [hdata, key]
  rfl

/-! ## Claims about the dispatcher (`CommonService.handle`) -/

/-- C2 counterexample: a transport payload that does not decode makes
`handle` raise the decode error; no Result Envelope with an anomaly status
is produced. -/
theorem malformed_payload_crash_counterexample :
    CommonService.default.handle env0 ⟨"", 3, "rid"⟩ =
      .error ⟨"JSONDecodeError", "Expecting value"⟩ := rfl

/-- C2 (amended): when the transport payload does not decode to JSON, the
decode exception propagates out of `handle`; no Result Envelope is built
and neither resolution nor invocation is reached. -/
theorem malformed_payload_propagates
    (svc : CommonService) (env : Env) (req : CommonRequest)
    (hdec : loads req.request = none) :
    svc.handle env req = .error ⟨"JSONDecodeError", "Expecting value"⟩ := by
  simp only [CommonService.handle, hdec]

/-- C2 witness: the amended claim at the empty payload. -/
theorem malformed_payload_propagates_witness :
    CommonService.default.handle env0 ⟨"", 3, "rid"⟩ =
      .error ⟨"JSONDecodeError", "Expecting value"⟩ :=
  malformed_payload_propagates CommonService.default env0 ⟨"", 3, "rid"⟩ rfl

/-- C1 counterexample: a call whose dot-separated method path has a missing
attribute makes `handle` raise the `AttributeError` instead of producing a
status `-1` Result Envelope — resolution happens outside the `try` block. -/
theorem resolution_failure_not_captured_counterexample :
    CommonService.default.handle env0 nopeCallRequest =
      .error ⟨"AttributeError", "object has no attribute missing"⟩ := by
  have hreq : nopeCallRequest.request = dumps nopeEnvelope := rfl
  simp only [CommonService.handle, hreq, loads_dumps]
  rfl

/-- C1 (amended): a resolution failure (namespace not loadable, or an
attribute missing at any segment of the method path) propagates out of
`handle` as the raised exception; no Result Envelope is produced for it. -/
theorem resolution_failure_propagates
    (svc : CommonService) (env : Env) (req : CommonRequest) (rq : Json) (e : PyExc)
    (hdec : loads req.request = some rq)
    (hobj : rq.isObj = true)
    (hres : resolveInvoke env svc.clazz_handler rq = .error e) :
    svc.handle env req = .error e := by
  simp only [CommonService.handle, hdec, hobj, if_true, hres]

/-- C1 witness: the amended claim on an unloadable namespace. -/
theorem resolution_failure_propagates_witness :
    CommonService.default.handle env0 badModCallRequest =
      .error ⟨"ModuleNotFoundError", "No module named no_mod"⟩ :=
  resolution_failure_propagates CommonService.default env0 badModCallRequest badModEnvelope
    ⟨"ModuleNotFoundError", "No module named no_mod"⟩ (loads_dumps badModEnvelope) rfl rfl

/-- C3: any exception raised while invoking the resolved callable is caught
and turned into a Result Envelope with status `-1`, `excType` the raised
type name and `message` its text; nothing propagates to the transport. -/
theorem invocation_exception_captured
    (svc : CommonService) (env : Env) (req : CommonRequest) (rq : Json)
    (invoke : PyObj) (e : PyExc)
    (hdec : loads req.request = some rq)
    (hobj : rq.isObj = true)
    (hres : resolveInvoke env svc.clazz_handler rq = .ok invoke)
    (hraise : invokeCall invoke (rq.get "args") (rq.get "kwargs") = .error e) :
    svc.handle env req =
      .ok ⟨dumps (.obj [("status", .num (-1)), ("message", .str e.msg),
        ("excType", .str e.name), ("result", .str "")]), -1⟩ := by
  simp only [CommonService.handle, hdec, hobj, if_true, hres, hraise, dumpsResp,
    respToJson, Option.map]

/-- C3 witness: dispatching to a method that raises `ValueError`. -/
theorem invocation_exception_captured_witness :
    CommonService.default.handle env0 boomCallRequest =
      .ok ⟨dumps (.obj [("status", .num (-1)), ("message", .str "boom"),
        ("excType", .str "ValueError"), ("result", .str "")]), -1⟩ :=
  invocation_exception_captured CommonService.default env0 boomCallRequest boomEnvelope
    raisingObj ⟨"ValueError", "boom"⟩ (loads_dumps boomEnvelope) rfl rfl rfl

/-- C7 counterexample: a callable returning a value the codec cannot
represent makes the response encoding raise out of `handle` — the encode
failure is a crash, not a captured application error. -/
theorem unrepresentable_result_crash_counterexample :
    CommonService.default.handle env0 leakCallRequest =
      .error ⟨"TypeError", "Object is not JSON serializable"⟩ := by
  have hreq : leakCallRequest.request = dumps leakEnvelope := rfl
  simp only [CommonService.handle, hreq, loads_dumps]
  rfl

/-- C7 (amended): a successful invocation yields a Result Envelope with
status `0` and the callable's return value in `result`; but when that value
is not representable by the codec, `json.dumps` raises and the `TypeError`
propagates out of `handle` instead of being captured as an envelope. -/
theorem success_result_envelope
    (svc : CommonService) (env : Env) (req : CommonRequest) (rq : Json)
    (invoke : PyObj) (v : PyVal)
    (hdec : loads req.request = some rq)
    (hobj : rq.isObj = true)
    (hres : resolveInvoke env svc.clazz_handler rq = .ok invoke)
    (hcall : invokeCall invoke (rq.get "args") (rq.get "kwargs") = .ok v) :
    svc.handle env req =
      match v with
      | .json j => .ok ⟨dumps (.obj [("status", .num 0), ("message", .str ""),
          ("excType", .str ""), ("result", j)]), 0⟩
      | .blob _ => .error ⟨"TypeError", "Object is not JSON serializable"⟩ := by
  cases v with
  | json j =>
    simp only [CommonService.handle, hdec, hobj, if_true, hres, hcall, dumpsResp,
      respToJson, Option.map]
  | blob tag =>
    simp only [CommonService.handle, hdec, hobj, if_true, hres, hcall, dumpsResp,
      respToJson, Option.map]

/-- C7 witness: the successful branch on `add(a=2, b=3)`. -/
theorem success_result_envelope_witness :
    CommonService.default.handle env0 addCallRequest =
      .ok ⟨dumps (.obj [("status", .num 0), ("message", .str ""),
        ("excType", .str ""), ("result", .num 5)]), 0⟩ :=
  success_result_envelope CommonService.default env0 addCallRequest addEnvelope
    addObj (.json (.num 5)) (loads_dumps addEnvelope) rfl rfl rfl

/-- C10: every transport response `handle` produces carries an outer status
equal to the `status` field of the JSON Result Envelope in its payload. -/
theorem outer_status_matches_payload
    (svc : CommonService) (env : Env) (req : CommonRequest) (resp : CommonResponse)
    (h : svc.handle env req = .ok resp) :
    ∃ j, loads resp.response = some j ∧ j.get "status" = some (.num resp.status) := by
  simp only [CommonService.handle] at h
  cases hl : loads req.request with
  | none => simp only [hl] at h; cases h
  | some rq =>
    simp only [hl] at h
    by_cases hobj : rq.isObj = true
    · simp only [hobj, if_true] at h
      cases hres : resolveInvoke env svc.clazz_handler rq with
      | error e => simp only [hres] at h; cases h
      | ok invoke =>
        simp only [hres] at h
        cases hcall : invokeCall invoke (rq.get "args") (rq.get "kwargs") with
        | ok v =>
          cases v with
          | json j =>
            simp only [hcall, dumpsResp, respToJson, Option.map] at h
            cases h
            exact ⟨_, loads_dumps _, rfl⟩
          | blob tag =>
            simp only [hcall, dumpsResp, respToJson, Option.map] at h
            cases h
        | error e =>
          simp only [hcall, dumpsResp, respToJson, Option.map] at h
          cases h
          exact ⟨_, loads_dumps _, rfl⟩
    · simp only [if_neg hobj] at h
      cases h

/-- C10 witness: the successful `add` dispatch. -/
theorem outer_status_matches_payload_witness :
    ∃ j, loads addSuccessResponse.response = some j ∧
      j.get "status" = some (.num addSuccessResponse.status) :=
  outer_status_matches_payload CommonService.default env0 addCallRequest addSuccessResponse
    (by
      have hreq : addCallRequest.request = dumps addEnvelope := rfl
      simp only [CommonService.handle, hreq, loads_dumps]
      rfl)

/-! ## Claims about the Invoker (`grpc_service` wrapper) -/

/-- C4: a decoded Result Envelope with status `0` makes the wrapped call
return the `result` field; status `-1` raises `GrpcException` carrying
`excType` and `message` unchanged; any other status raises the generic
`unknown grpc exception`. -/
theorem invoker_status_branching
    (decl : FuncDecl) (server : String) (serialize : Int) (client : GrpcClient)
    (requestId : String) (args : List Json) (kwargs : List (String × Json))
    (stub : Stub) (req0 : Json) (s : Int) (msg et : String) (res : Json)
    (hbuild : buildRequest decl args kwargs = some req0)
    (hstub : client.connect server = some stub)
    (hresp : (stub ⟨dumps req0, serialize, requestId⟩).response =
      dumps (.obj [("status", .num s), ("message", .str msg),
        ("excType", .str et), ("result", res)])) :
    wrapper decl server serialize client requestId args kwargs =
      if s = 0 then .ok res
      else if s = -1 then .error (.grpcException (some (.str et)) (some (.str msg)))
      else .error .unknownGrpc := by
  simp only [wrapper, hbuild, hstub, hresp, loads_dumps]
  by_cases hs0 : s = 0
  · subst hs0
    simp +decide [Json.isObj, Json.get, pyEqInt]
    rfl
  · by_cases hs1 : s = -1
    · subst hs1
      simp +decide [Json.isObj, Json.get, pyEqInt, hs0]
      exact ⟨rfl, rfl⟩
    · have b0 : (s == (0 : Int)) = false := by simp [hs0]
      have b1 : (s == (-1 : Int)) = false := by simp [hs1]
      simp +decide [Json.isObj, Json.get, pyEqInt, hs0, hs1, b0, b1]

/-- C4 witness: a stub answering with a status `-1` envelope. -/
theorem invoker_status_branching_witness :
    wrapper xDecl "srv" 3 client1 "rid" [.num 5] [] =
      (if (-1 : Int) = 0 then Except.ok (Json.str "")
       else if (-1 : Int) = -1 then
         .error (.grpcException (some (.str "ValueError")) (some (.str "boom")))
       else .error .unknownGrpc) :=
  invoker_status_branching xDecl "srv" 3 client1 "rid" [.num 5] [] errStub
    (.obj [("clazz", .str "mod"), ("method", .str "f"), ("args", .arr []),
      ("kwargs", .obj [("x", .num 5)])])
    (-1) "boom" "ValueError" (.str "") rfl rfl rfl

/-- C5 counterexample: a declared method whose first parameter is `self`
transmits `self` in the wire kwargs — only a parameter literally named
`cls` is stripped before transmission. -/
theorem self_receiver_transmitted_counterexample :
    buildRequest selfDecl [.num 1, .num 2] [] =
      some (.obj [("clazz", .str "mod"), ("method", .str "C.f"), ("args", .arr []),
        ("kwargs", .obj [("self", .num 1), ("x", .num 2)])]) := rfl

/-- C5 (amended): the Call Envelope carries `args = ()` and `kwargs` equal
to the bound call-site arguments with a parameter named `cls` (when the
signature declares one) removed; a `self` parameter is not stripped.
`namespace`/`method` are the declared module and qualified name.  A purely
positional call binds each argument to the parameter at its position. -/
theorem call_envelope_flattened
    (decl : FuncDecl) (args : List Json) (kwargs : List (String × Json))
    (bound : List (String × Json))
    (hbind : bindArguments decl.params args kwargs = some bound) :
    buildRequest decl args kwargs =
      some (.obj [("clazz", .str decl.module), ("method", .str decl.qualname),
        ("args", .arr []), ("kwargs", .obj (stripCls decl.params bound))]) ∧
    (kwargs = [] → args.length = decl.params.length → bound = decl.params.zip args) := by
  constructor
  · simp only [buildRequest, hbind, Option.map]
  · intro hk hlen
    subst hk
    rw [bindArguments] at hbind
    by_cases hcond : args.length ≤ decl.params.length
        ∧ (([] : List (String × Json)).map Prod.fst).Nodup
        ∧ (∀ k ∈ ([] : List (String × Json)).map Prod.fst,
            k ∈ decl.params.drop args.length)
        ∧ (∀ p ∈ decl.params.drop args.length,
            p ∈ ([] : List (String × Json)).map Prod.fst)
    · rw [if_pos hcond] at hbind
      have hdrop : decl.params.drop args.length = [] := by
        rw [hlen, List.drop_length]
      rw [hdrop] at hbind
      simp only [List.map_nil, List.append_nil] at hbind
      exact (Option.some.injEq _ _).mp hbind |>.symm
    · rw [if_neg hcond] at hbind
      cases hbind

/-- C5 witness: a classmethod-style declaration `cls, a` called
positionally — `cls` is stripped, `a` is transmitted by name. -/
theorem call_envelope_flattened_witness :
    (buildRequest clsDecl [.num 7, .num 8] [] =
      some (.obj [("clazz", .str "mod"), ("method", .str "C.g"), ("args", .arr []),
        ("kwargs", .obj (stripCls clsDecl.params
          [("cls", Json.num 7), ("a", Json.num 8)]))]) ∧
    (([] : List (String × Json)) = [] → ([Json.num 7, Json.num 8]).length
        = clsDecl.params.length →
      [("cls", Json.num 7), ("a", Json.num 8)] = clsDecl.params.zip [.num 7, .num 8])) :=
  call_envelope_flattened clsDecl [.num 7, .num 8] []
    [("cls", Json.num 7), ("a", Json.num 8)] rfl

/-- C8: when the configured target server name was never loaded into the
registry, the wrapper fails locally (the `None` stub has no `handle`); no
stub exists to receive a request, so nothing is sent. -/
theorem unregistered_server_client_error
    (decl : FuncDecl) (server : String) (serialize : Int) (client : GrpcClient)
    (requestId : String) (args : List Json) (kwargs : List (String × Json)) (req0 : Json)
    (hbuild : buildRequest decl args kwargs = some req0)
    (hstub : client.connect server = none) :
    wrapper decl server serialize client requestId args kwargs =
      .error (.noneStub server) := by
  simp only [wrapper, hbuild, hstub]

/-- C8 witness: calling through a client with an empty registry. -/
theorem unregistered_server_client_error_witness :
    wrapper xDecl "srv" 3 emptyClient "rid" [.num 5] [] =
      .error (.noneStub "srv") :=
  unregistered_server_client_error xDecl "srv" 3 emptyClient "rid" [.num 5] []
    (.obj [("clazz", .str "mod"), ("method", .str "f"), ("args", .arr []),
      ("kwargs", .obj [("x", .num 5)])]) rfl rfl

/-! ## Claims about observability and the codec -/

/-- C9: `rpc_log` returns the wrapped handler's response untouched; when the
serialized response exceeds 4096 characters the logged record carries a
preview of at most 4096 characters followed by the `"..."` marker, and
otherwise it carries the full serialized response.  (`MessageToJson` output
for a `CommonResponse` is ASCII — the payload is base64 in JSON — so its
character count equals its byte count.) -/
theorem rpc_log_truncation
    (toJson : CommonResponse → String) (funcName : String)
    (func : CommonRequest → Except PyExc CommonResponse)
    (request : CommonRequest) (response : CommonResponse)
    (h : func request = .ok response) :
    ∃ rec, rpc_log toJson funcName func request = .ok (response, rec) ∧
      rec.request_id = request.request_id ∧
      ((toJson response).data.length > 4096 →
        rec.response = ⟨(toJson response).data.take 4096 ++ "...".data⟩ ∧
        ((toJson response).data.take 4096).length ≤ 4096) ∧
      ((toJson response).data.length ≤ 4096 → rec.response = toJson response) := by
  by_cases hlen : (toJson response).data.length > 1024 * 4
  · refine ⟨⟨request.request_id, funcName,
      ⟨(toJson response).data.take (1024 * 4) ++ "...".data⟩, false, 0⟩, ?_, rfl, ?_, ?_⟩
    · simp only [rpc_log, h, hlen, if_true]
    · intro _
      refine ⟨rfl, ?_⟩
      rw [List.length_take]
      omega
    · intro hle
      omega
  · refine ⟨⟨request.request_id, funcName, toJson response, true, response.status⟩,
      ?_, rfl, ?_, ?_⟩
    · simp only [rpc_log, h, hlen, if_false]
    · intro hgt
      omega
    · intro _
      rfl

/-- C9 witness: a 5000-character serialized response is truncated in the
log while the returned response is untouched. -/
theorem rpc_log_truncation_witness :
    ∃ rec, rpc_log (fun _ => bigString) "common_pygrpc.grpclib.handle"
        (fun _ => .ok okResponse) ⟨"", 3, "rid"⟩ = .ok (okResponse, rec) ∧
      rec.request_id = (⟨"", 3, "rid"⟩ : CommonRequest).request_id ∧
      (bigString.data.length > 4096 →
        rec.response = ⟨bigString.data.take 4096 ++ "...".data⟩ ∧
        (bigString.data.take 4096).length ≤ 4096) ∧
      (bigString.data.length ≤ 4096 → rec.response = bigString) :=
  rpc_log_truncation (fun _ => bigString) "common_pygrpc.grpclib.handle"
    (fun _ => .ok okResponse) ⟨"", 3, "rid"⟩ okResponse rfl

/-- C6: the envelope codec round-trips — decoding the text produced by
encoding a Call Envelope reproduces all four fields, and likewise for a
Result Envelope; the field lookups used by `handle` and the wrapper recover
each field. -/
theorem envelope_codec_round_trip
    (ns mth : String) (args : List Json) (kwargs : List (String × Json))
    (s : Int) (msg et : String) (res : Json) :
    (loads (dumps (.obj [("clazz", .str ns), ("method", .str mth),
        ("args", .arr args), ("kwargs", .obj kwargs)])) =
      some (.obj [("clazz", .str ns), ("method", .str mth),
        ("args", .arr args), ("kwargs", .obj kwargs)])) ∧
    ((Json.obj [("clazz", .str ns), ("method", .str mth), ("args", .arr args),
        ("kwargs", .obj kwargs)]).get "clazz" = some (.str ns)) ∧
    ((Json.obj [("clazz", .str ns), ("method", .str mth), ("args", .arr args),
        ("kwargs", .obj kwargs)]).get "method" = some (.str mth)) ∧
    ((Json.obj [("clazz", .str ns), ("method", .str mth), ("args", .arr args),
        ("kwargs", .obj kwargs)]).get "args" = some (.arr args)) ∧
    ((Json.obj [("clazz", .str ns), ("method", .str mth), ("args", .arr args),
        ("kwargs", .obj kwargs)]).get "kwargs" = some (.obj kwargs)) ∧
    (loads (dumps (.obj [("status", .num s), ("message", .str msg),
        ("excType", .str et), ("result", res)])) =
      some (.obj [("status", .num s), ("message", .str msg),
        ("excType", .str et), ("result", res)])) ∧
    ((Json.obj [("status", .num s), ("message", .str msg), ("excType", .str et),
        ("result", res)]).get "status" = some (.num s)) ∧
    ((Json.obj [("status", .num s), ("message", .str msg), ("excType", .str et),
        ("result", res)]).get "message" = some (.str msg)) ∧
    ((Json.obj [("status", .num s), ("message", .str msg), ("excType", .str et),
        ("result", res)]).get "excType" = some (.str et)) ∧
    ((Json.obj [("status", .num s), ("message", .str msg), ("excType", .str et),
        ("result", res)]).get "result" = some res) :=
  ⟨loads_dumps _, rfl, rfl, rfl, rfl, loads_dumps _, rfl, rfl, rfl, rfl⟩
